import Mathlib

/-!
Shallow embedding of the FlowAgent message broker (mcp-server/main.py),
client transport (backend/services/mcp_client.py), coordinator
(backend/services/agent_manager.py) and execution engine
(backend/agents/executor_agent.py), with theorems settling the frozen
claims about the natural-language specification.
-/

/-- JSON values, the payload universe of the wire protocol. -/
inductive JValue where
  | null : JValue
  | bool : Bool → JValue
  | num : Int → JValue
  | str : String → JValue
  | arr : List JValue → JValue
  | obj : List (String × JValue) → JValue

/-- Dictionary lookup on a JSON object's field list (Python `dict.get`). -/
def dictGet : List (String × JValue) → String → Option JValue
  | [], _ => none
  | (k2, v) :: rest, k => if k2 = k then some v else dictGet rest k

/-- The MCPMessage dataclass of mcp-server/main.py.  Field values other than
`source` are whatever JSON values the frame carried (Python does not check the
annotations); `source` is always a genuine string set by the server. -/
structure MCPMessage where
  id : JValue
  type : JValue
  source : String
  destination : JValue
  data : JValue
  timestamp : JValue
  correlation_id : JValue

/-- `MCPServer._process_message`: parse one inbound frame from the connection
with identity `client_id`.  `frame` is `none` when the text was not valid JSON
(`json.JSONDecodeError` branch); a valid-JSON non-object raises
`AttributeError` on `.get`, caught by the generic handler, so it is dropped
too.  `fresh_id` and `now` stand for the freshly generated message id and the
current time used as defaults. -/
def process_message (client_id : String) (frame : Option JValue)
    (fresh_id now : String) : Option MCPMessage :=
  match frame with
  | some (JValue.obj fields) =>
      some {
        id := (dictGet fields "id").getD (JValue.str fresh_id),
        type := (dictGet fields "type").getD (JValue.str "unknown"),
        source := client_id,
        destination := (dictGet fields "destination").getD JValue.null,
        data := (dictGet fields "data").getD (JValue.obj []),
        timestamp := (dictGet fields "timestamp").getD (JValue.str now),
        correlation_id := (dictGet fields "correlation_id").getD JValue.null }
  | _ => none

/-- The JSON object built by `MCPServer._send_to_client` (and identically by
`_broadcast_message`): note it has no "destination" key. -/
def wire_json (m : MCPMessage) : JValue :=
  JValue.obj [
    ("id", m.id),
    ("type", m.type),
    ("source", JValue.str m.source),
    ("data", m.data),
    ("timestamp", m.timestamp),
    ("correlation_id", m.correlation_id)]

/-- A concrete envelope with a destination, used to exhibit the lossy
round trip. -/
def sampleEnvelope : MCPMessage :=
  { id := JValue.str "i1", type := JValue.str "event", source := "alice",
    destination := JValue.str "bob", data := JValue.obj [],
    timestamp := JValue.str "ts1", correlation_id := JValue.null }

/-- One connected client as the broker sees it: whether a send on its
websocket succeeds, and the frames delivered to it so far. -/
structure Client where
  ok : Bool
  inbox : List JValue

/-- The MCPServer state: the Connected Client Registry (a dict, keys unique),
the set of registered handler types, and the internal FIFO message queue. -/
structure ServerState where
  clients : List (String × Client)
  handlers : List String
  queue : List MCPMessage

/-- First-match association lookup, modelling Python dict indexing on the
client registry (keys are unique in a dict). -/
def lookup_client : List (String × Client) → String → Option Client
  | [], _ => none
  | p :: rest, cid => if p.1 = cid then some p.2 else lookup_client rest cid

/-- Registry after a successful `websocket.send` to `cid`: that client's
inbox grows by the frame. -/
def deliver_wire : List (String × Client) → String → JValue → List (String × Client)
  | [], _, _ => []
  | p :: rest, cid, w =>
      (if p.1 = cid then (p.1, Client.mk p.2.ok (p.2.inbox ++ [w])) else p)
        :: deliver_wire rest cid w

/-- Registry after `self.clients.pop(cid, None)`. -/
def remove_client : List (String × Client) → String → List (String × Client)
  | [], _ => []
  | p :: rest, cid =>
      if p.1 = cid then remove_client rest cid else p :: remove_client rest cid

/-- `MCPServer._send_to_client`: if `cid` is connected, send the serialized
message; a send failure removes (only) that client from the registry. -/
def send_to_client (st : ServerState) (cid : String) (m : MCPMessage) :
    ServerState :=
  match lookup_client st.clients cid with
  | none => st
  | some cl =>
      if cl.ok then { st with clients := deliver_wire st.clients cid (wire_json m) }
      else { st with clients := remove_client st.clients cid }

/-- `MCPServer._broadcast_message`: send to every connected client except the
message's source.  The coroutine per target is created while iterating the
registry and all of them are then awaited; each one affects only its own
client's entry. -/
def broadcast_message (st : ServerState) (m : MCPMessage) : ServerState :=
  if st.clients.isEmpty then st
  else
    ((st.clients.map Prod.fst).filter (fun c => c ≠ m.source)).foldl
      (fun s cid => send_to_client s cid m) st

/-- `MCPServer._default_message_handler`: unicast when the destination is a
truthy string naming a connected client, otherwise broadcast.  A falsy
destination (null, empty string) or any non-string value fails the Python
`if message.destination and message.destination in self.clients` test. -/
def default_message_handler (st : ServerState) (m : MCPMessage) : ServerState :=
  match m.destination with
  | JValue.str d =>
      if d ≠ "" ∧ (lookup_client st.clients d).isSome
      then send_to_client st d m
      else broadcast_message st m
  | _ => broadcast_message st m

/-- `MCPServer._route_message`: a registered handler for the message's type
intercepts it (handler effects are external to this state); otherwise default
routing applies.  A non-string type never matches a handler key. -/
def route_message (st : ServerState) (m : MCPMessage) : ServerState :=
  match m.type with
  | JValue.str t =>
      if st.handlers.contains t then st else default_message_handler st m
  | _ => default_message_handler st m

/-- Enqueue the envelope parsed from one inbound frame (tail of
`MCPServer._process_message`): valid envelopes go to the back of the FIFO
queue, dropped frames leave the state unchanged. -/
def enqueue_frame (st : ServerState) (client_id : String) (frame : Option JValue)
    (fresh_id now : String) : ServerState :=
  match process_message client_id frame fresh_id now with
  | some m => { st with queue := st.queue ++ [m] }
  | none => st

/-- The single queue consumer: dispatch each queued envelope in order,
returning the dispatch order together with the final state. -/
def drain : List MCPMessage → ServerState → List MCPMessage × ServerState
  | [], st => ([], st)
  | m :: ms, st =>
      let st2 := route_message st m
      let r := drain ms st2
      (m :: r.1, r.2)

/-- `MCPServer._message_processing_loop` run until the queue is empty. -/
def message_processing_loop (st : ServerState) : List MCPMessage × ServerState :=
  drain st.queue { st with queue := [] }

/-- A concrete destination-less envelope from client "a", used as broadcast
witness input. -/
def sampleBroadcastMsg : MCPMessage :=
  { id := JValue.str "i2", type := JValue.str "alert", source := "a",
    destination := JValue.null, data := JValue.obj [],
    timestamp := JValue.str "ts2", correlation_id := JValue.null }

/-! ## Client transport (backend/services/mcp_client.py) -/

/-- The MCPClient state: the Pending Request Table (ids of unresolved
futures), the frames transmitted so far, and the registered handler types. -/
structure ClientState where
  pending : List String
  sent : List JValue
  handlers : List String

/-- What `MCPClient._process_message` did with one inbound frame. -/
inductive ClientEvent where
  | dropped
  | resolved (id : String) (v : JValue)
  | handled (t : String)
  | unhandled

/-- Handler dispatch, the fallthrough of `MCPClient._process_message` when the
frame's id matches no pending future: look up a handler by the frame's type
(a non-string or missing type matches no registered key). -/
def client_handler_dispatch (st : ClientState) (fields : List (String × JValue)) :
    ClientState × ClientEvent :=
  match dictGet fields "type" with
  | some (JValue.str t) =>
      if st.handlers.contains t then (st, ClientEvent.handled t)
      else (st, ClientEvent.unhandled)
  | _ => (st, ClientEvent.unhandled)

/-- `MCPClient._process_message`: invalid JSON (`none`) and valid-JSON
non-objects (`.get` raises, caught) are dropped; if the frame's id is a
string with a pending future, pop the entry and resolve the future with the
whole parsed frame; otherwise dispatch to a type handler. -/
def client_process_message (st : ClientState) (frame : Option JValue) :
    ClientState × ClientEvent :=
  match frame with
  | some (JValue.obj fields) =>
      match dictGet fields "id" with
      | some (JValue.str i) =>
          if st.pending.contains i then
            ({ st with pending := st.pending.filter (fun x => x ≠ i) },
             ClientEvent.resolved i (JValue.obj fields))
          else client_handler_dispatch st fields
      | _ => client_handler_dispatch st fields
  | _ => (st, ClientEvent.dropped)

/-- The JSON object built by `MCPClient.send_message` (source is the literal
"client"; the destination key is present, null when absent). -/
def mk_client_message (mid mtype : String) (dest : Option String) (d ts : JValue) :
    JValue :=
  JValue.obj [
    ("id", JValue.str mid),
    ("type", JValue.str mtype),
    ("source", JValue.str "client"),
    ("destination", match dest with | some s => JValue.str s | none => JValue.null),
    ("data", d),
    ("timestamp", ts)]

/-- `self.pending_messages[message_id] = future`. -/
def register_pending (st : ClientState) (mid : String) : ClientState :=
  { st with pending := st.pending ++ [mid] }

/-- `await self.websocket.send(json.dumps(message))`. -/
def transmit (st : ClientState) (frame : JValue) : ClientState :=
  { st with sent := st.sent ++ [frame] }

/-- Result of a `send_message(..., wait_for_response=True)` call. -/
inductive SendOutcome where
  | ok (v : JValue)
  | timeoutError

/-- `MCPClient.send_message` with `wait_for_response=True`: register the
pending future under the fresh id, transmit, then either time out (`reply` is
`none`: pop the pending entry and fail) or have the read loop deliver one
frame before the deadline; the call returns the parsed reply handed to the
future iff that frame resolved this id. -/
def send_message_wait (st : ClientState) (mtype : String) (d : JValue)
    (dest : Option String) (mid : String) (ts : JValue)
    (reply : Option JValue) : ClientState × SendOutcome :=
  let msg := mk_client_message mid mtype dest d ts
  let st2 := transmit (register_pending st mid) msg
  match reply with
  | none =>
      ({ st2 with pending := st2.pending.filter (fun x => x ≠ mid) },
       SendOutcome.timeoutError)
  | some r =>
      let pr := client_process_message st2 (some r)
      match pr.2 with
      | ClientEvent.resolved i v =>
          if i = mid then (pr.1, SendOutcome.ok v)
          else ({ pr.1 with pending := pr.1.pending.filter (fun x => x ≠ mid) },
                SendOutcome.timeoutError)
      | _ =>
          ({ pr.1 with pending := pr.1.pending.filter (fun x => x ≠ mid) },
           SendOutcome.timeoutError)

/-! ## Broker client identities (MCPServer._handle_client) -/

/-- Connection-level events seen by the broker. -/
inductive ServerEvent where
  | connect (ts : String)
  | disconnect (cid : String)

/-- The identity string assigned on connect when `n` clients are currently
registered: `f"client_{len(self.clients) + 1}_{datetime.now().strftime(...)}"`. -/
def mk_client_id (n : Nat) (ts : String) : String :=
  "client_" ++ toString (n + 1) ++ "_" ++ ts

/-- `self.clients[client_id] = websocket` on the registry's key list: a
duplicate key overwrites in place, leaving the key list unchanged. -/
def dict_insert (l : List String) (id2 : String) : List String :=
  if l.contains id2 then l else l ++ [id2]

/-- Run a sequence of connection events against `MCPServer._handle_client`,
starting from registry key list `cl`; returns the list of
(assigned identity, connect timestamp) pairs in order of assignment.
Disconnect pops the identity from the registry. -/
def run_handle_clients : List ServerEvent → List String → List (String × String)
  | [], _ => []
  | ServerEvent.connect ts :: es, cl =>
      (mk_client_id cl.length ts, ts)
        :: run_handle_clients es (dict_insert cl (mk_client_id cl.length ts))
  | ServerEvent.disconnect c :: es, cl =>
      run_handle_clients es (cl.filter (fun x => x ≠ c))

/-- All identities the broker ever assigns over an event sequence. -/
def assigned_ids (es : List ServerEvent) : List String :=
  (run_handle_clients es []).map Prod.fst

/-- The timestamps of the connect events, in order. -/
def connect_stamps : List ServerEvent → List String
  | [] => []
  | ServerEvent.connect ts :: es => ts :: connect_stamps es
  | ServerEvent.disconnect _ :: es => connect_stamps es

/-! ## Coordinator (backend/services/agent_manager.py) -/

/-- How a coordinator call ended: normally, with a logged warning, with a
raised exception, or with an exception caught and merely logged. -/
inductive AgentOutcome where
  | ok
  | warning
  | raisedError
  | loggedError
deriving DecidableEq

/-- The AgentManager state relevant to start/stop: the `is_running` flag. -/
structure AgentManagerState where
  is_running : Bool
deriving DecidableEq

/-- `AgentManager.start_all_agents`; `obs_ok` is whether
`observer_agent.start_monitoring()` succeeds.  Already running: warn and
return.  Otherwise set the flag, and on failure reset it and re-raise. -/
def start_all_agents (obs_ok : Bool) (st : AgentManagerState) :
    AgentManagerState × AgentOutcome :=
  if st.is_running then (st, AgentOutcome.warning)
  else if obs_ok then (AgentManagerState.mk true, AgentOutcome.ok)
  else (AgentManagerState.mk false, AgentOutcome.raisedError)

/-- `AgentManager.stop_all_agents`; `obs_ok` is whether
`observer_agent.stop_monitoring()` succeeds.  Not running: warn and return.
Otherwise clear the flag; a failure while stopping is caught and logged,
never raised. -/
def stop_all_agents (obs_ok : Bool) (st : AgentManagerState) :
    AgentManagerState × AgentOutcome :=
  if st.is_running then
    (AgentManagerState.mk false,
     if obs_ok then AgentOutcome.ok else AgentOutcome.loggedError)
  else (st, AgentOutcome.warning)

/-! ## Execution engine (backend/agents/executor_agent.py) -/

/-- The per-attempt Task Result as the engine reads it: the status string,
the optional error message, and the retry_count field of the returned JSON
(the exception fallback dict carries retry_count 0). -/
structure TaskResult where
  status : String
  error : Option String
  retry_count : Nat
deriving DecidableEq

/-- An entry of the execution context's failed list:
`{"task_id": ..., "error": ..., "retry_count": ...}`. -/
structure FailedTask where
  task_id : String
  error : Option String
  retry_count : Nat
deriving DecidableEq

/-- The Execution Context fields the claims are about, plus instrumentation:
`attempts` records each `_execute_single_task` call as (task id, attempt
index: 0 = initial, 1 = retry), `sleeps` each backoff `asyncio.sleep`. -/
structure ExecutionContext where
  completed_tasks : List String
  failed_tasks : List FailedTask
  attempts : List (String × Nat)
  sleeps : List Nat
  status : String
deriving DecidableEq

/-- `ExecutorAgent._handle_task_failure`: with `rc` the failing result's
retry_count, if `rc < max_retries` sleep `2 ^ rc`, re-execute the task once,
and stamp the retry result with `rc + 1`; otherwise do nothing.  Returns the
sleeps performed, the re-execution attempts performed, and the retry result —
which the caller (`execute_workflow`) discards. -/
def handle_task_failure (t : String) (ex : String → Nat → TaskResult)
    (error_result : TaskResult) (max_retries : Nat) :
    List Nat × List (String × Nat) × Option TaskResult :=
  let rc := error_result.retry_count
  if rc < max_retries then
    ([2 ^ rc], [(t, 1)],
     some (TaskResult.mk (ex t 1).status (ex t 1).error (rc + 1)))
  else ([], [], none)

/-- The task loop of `ExecutorAgent.execute_workflow`: execute each task once
(`ex t 0`); on success append to completed, on failure append the failed
entry and invoke `handle_task_failure`, whose return value is ignored; then
move to the next task.  At the end the status becomes "completed". -/
def exec_go (max_retries : Nat) (ex : String → Nat → TaskResult) :
    List String → ExecutionContext → ExecutionContext
  | [], ctx => { ctx with status := "completed" }
  | t :: rest, ctx =>
      let r := ex t 0
      let ctx1 := { ctx with attempts := ctx.attempts ++ [(t, 0)] }
      if r.status == "success" then
        exec_go max_retries ex rest
          { ctx1 with completed_tasks := ctx1.completed_tasks ++ [t] }
      else
        let ctx2 := { ctx1 with
          failed_tasks := ctx1.failed_tasks
            ++ [FailedTask.mk t r.error r.retry_count] }
        let h := handle_task_failure t ex r max_retries
        exec_go max_retries ex rest
          { ctx2 with sleeps := ctx2.sleeps ++ h.1,
                      attempts := ctx2.attempts ++ h.2.1 }

/-- `ExecutorAgent.execute_workflow` on an ordered task list, with the opaque
per-attempt task execution `ex`. -/
def execute_workflow (tasks : List String) (max_retries : Nat)
    (ex : String → Nat → TaskResult) : ExecutionContext :=
  exec_go max_retries ex tasks (ExecutionContext.mk [] [] [] [] "running")

/-- The claim C1 scenario: T1 and T3 always succeed; T2 fails on attempts 0
and 1 and would succeed from attempt 2 on. -/
def retry_succeeds_oracle : String → Nat → TaskResult := fun t k =>
  if t = "T2" then
    (if 2 ≤ k then TaskResult.mk "success" none 0
     else TaskResult.mk "failed" (some "boom") 0)
  else TaskResult.mk "success" none 0

/-- An oracle whose task never succeeds. -/
def always_fails_oracle : String → Nat → TaskResult :=
  fun _ _ => TaskResult.mk "failed" (some "boom") 0

/-- C4 (counterexample): serializing `sampleEnvelope` and parsing it back on a
connection named "conn7" does not reproduce the envelope: the wire format has
no destination field, and the parser overwrites the source. -/
theorem c4_roundtrip_counterexample :
    process_message "conn7" (some (wire_json sampleEnvelope)) "f" "n"
      ≠ some sampleEnvelope := by
  intro h
  have h2 : (JValue.str "bob") = JValue.null := by
    have h3 :
        process_message "conn7" (some (wire_json sampleEnvelope)) "f" "n"
          = some { sampleEnvelope with source := "conn7",
                                       destination := JValue.null } := rfl
    rw [h3] at h
    have h4 := congrArg (fun o => (o.getD sampleEnvelope).destination) h
    simpa [sampleEnvelope] using h4.symm
  exact JValue.noConfusion h2

/-- C4 (amended): the round trip preserves id, type, data, timestamp and
correlation_id; the destination always comes back absent (the wire format
omits it) and the source comes back as the receiving connection's identity,
not the original source. -/
theorem c4_roundtrip_amended (m : MCPMessage) (c fid now : String) :
    process_message c (some (wire_json m)) fid now
      = some { id := m.id, type := m.type, source := c,
               destination := JValue.null, data := m.data,
               timestamp := m.timestamp, correlation_id := m.correlation_id } := rfl

/-- C9: the broker stamps every enqueued envelope with the connection's
assigned identity — any envelope produced by `process_message` on connection
`c` has source `c`, and two frames that differ only in their claimed
"source" field parse to identical envelopes (the field is never read). -/
theorem c9_source_not_spoofable (c fid now : String)
    (fields : List (String × JValue)) (v w : JValue) :
    (∀ m, process_message c (some (JValue.obj fields)) fid now = some m →
        m.source = c)
    ∧ process_message c (some (JValue.obj (("source", v) :: fields))) fid now
        = process_message c (some (JValue.obj (("source", w) :: fields))) fid now := by
  constructor
  · intro m hm
    simp only [process_message, Option.some.injEq] at hm
    rw [← hm]
  · simp [process_message, dictGet]

/-- C10 (counterexample): it is not true that the broker drops a frame only
when it is not syntactically valid JSON — the frame `5` is valid JSON but is
dropped because `.get` raises on a non-dict (caught by the generic handler). -/
theorem c10_drop_counterexample :
    process_message "c" (some (JValue.num 5)) "f" "t" = none
    ∧ some (JValue.num 5) ≠ (none : Option JValue) := by
  exact ⟨rfl, by simp⟩

/-- C10 (amended): a frame is dropped exactly when it is not valid JSON or
not a JSON object; every JSON-object frame is enqueued, with a missing id
replaced by the fresh one, a missing type by "unknown", a missing data by the
empty object, a missing timestamp by the current time, and missing
destination/correlation_id by null. -/
theorem c10_object_frames_accepted (c fid now : String) :
    (∀ fields : List (String × JValue),
      process_message c (some (JValue.obj fields)) fid now
        = some {
            id := (dictGet fields "id").getD (JValue.str fid),
            type := (dictGet fields "type").getD (JValue.str "unknown"),
            source := c,
            destination := (dictGet fields "destination").getD JValue.null,
            data := (dictGet fields "data").getD (JValue.obj []),
            timestamp := (dictGet fields "timestamp").getD (JValue.str now),
            correlation_id := (dictGet fields "correlation_id").getD JValue.null })
    ∧ process_message c none fid now = none
    ∧ process_message c (some JValue.null) fid now = none
    ∧ (∀ b, process_message c (some (JValue.bool b)) fid now = none)
    ∧ (∀ n, process_message c (some (JValue.num n)) fid now = none)
    ∧ (∀ s, process_message c (some (JValue.str s)) fid now = none)
    ∧ (∀ xs, process_message c (some (JValue.arr xs)) fid now = none) := by
  exact ⟨fun _ => rfl, rfl, rfl, fun _ => rfl, fun _ => rfl, fun _ => rfl,
    fun _ => rfl⟩

theorem lookup_deliver_ne (w : JValue) (c cid : String) (h : cid ≠ c) :
    ∀ l, lookup_client (deliver_wire l c w) cid = lookup_client l cid := by
  intro l
  induction l with
  | nil => rfl
  | cons p rest ih =>
    by_cases hp : p.1 = c
    · have h1 : p.1 ≠ cid := by rw [hp]; exact fun h2 => h h2.symm
      simp [deliver_wire, lookup_client, hp, h1, ih, Ne.symm h]
    · by_cases h2 : p.1 = cid
      · simp [deliver_wire, lookup_client, hp, h2, h]
      · simp [deliver_wire, lookup_client, hp, h2, ih]

theorem lookup_deliver_self (w : JValue) (c : String) :
    ∀ l, lookup_client (deliver_wire l c w) c
      = Option.map (fun cl => Client.mk cl.ok (cl.inbox ++ [w]))
          (lookup_client l c) := by
  intro l
  induction l with
  | nil => rfl
  | cons p rest ih =>
    by_cases hp : p.1 = c
    · simp [deliver_wire, lookup_client, hp]
    · simp [deliver_wire, lookup_client, hp, ih]

theorem lookup_remove_ne (c cid : String) (h : cid ≠ c) :
    ∀ l, lookup_client (remove_client l c) cid = lookup_client l cid := by
  intro l
  induction l with
  | nil => rfl
  | cons p rest ih =>
    by_cases hp : p.1 = c
    · have h1 : p.1 ≠ cid := by rw [hp]; exact fun h2 => h h2.symm
      simp [remove_client, lookup_client, hp, h1, ih, Ne.symm h]
    · by_cases h2 : p.1 = cid
      · simp [remove_client, lookup_client, hp, h2, h]
      · simp [remove_client, lookup_client, hp, h2, ih]

theorem lookup_remove_self (c : String) :
    ∀ l, lookup_client (remove_client l c) c = none := by
  intro l
  induction l with
  | nil => rfl
  | cons p rest ih =>
    by_cases hp : p.1 = c
    · simp [remove_client, lookup_client, hp, ih]
    · simp [remove_client, lookup_client, hp, ih]

theorem lookup_mem_keys :
    ∀ (l : List (String × Client)) (cid : String) (cl : Client),
      lookup_client l cid = some cl → cid ∈ l.map Prod.fst := by
  intro l
  induction l with
  | nil => intro cid cl h; exact absurd h (by simp [lookup_client])
  | cons p rest ih =>
    intro cid cl h
    by_cases hp : p.1 = cid
    · simp [hp.symm]
    · simp only [lookup_client, if_neg hp] at h
      simp [ih cid cl h]

theorem send_to_client_lookup_ne (st : ServerState) (c : String) (m : MCPMessage)
    (cid : String) (h : cid ≠ c) :
    lookup_client (send_to_client st c m).clients cid
      = lookup_client st.clients cid := by
  unfold send_to_client
  cases hl : lookup_client st.clients c with
  | none => rfl
  | some cl =>
    by_cases hok : cl.ok = true
    · simp [hok, lookup_deliver_ne _ _ _ h]
    · simp [hok, lookup_remove_ne _ _ h]

theorem send_to_client_lookup_ok (st : ServerState) (c : String) (m : MCPMessage)
    (cl : Client) (hl : lookup_client st.clients c = some cl)
    (hok : cl.ok = true) :
    lookup_client (send_to_client st c m).clients c
      = some (Client.mk cl.ok (cl.inbox ++ [wire_json m])) := by
  unfold send_to_client
  rw [hl]
  simp [hok, lookup_deliver_self, hl]

theorem send_to_client_lookup_bad (st : ServerState) (c : String) (m : MCPMessage)
    (cl : Client) (hl : lookup_client st.clients c = some cl)
    (hok : cl.ok = false) :
    lookup_client (send_to_client st c m).clients c = none := by
  unfold send_to_client
  rw [hl]
  simp [hok, lookup_remove_self]

theorem fold_send_lookup_notin (m : MCPMessage) (cid : String) :
    ∀ (ts : List String) (st : ServerState), cid ∉ ts →
      lookup_client ((ts.foldl (fun s c2 => send_to_client s c2 m) st)).clients cid
        = lookup_client st.clients cid := by
  intro ts
  induction ts with
  | nil => intro st _; rfl
  | cons t ts ih =>
    intro st h
    rw [List.foldl_cons]
    have h1 : cid ≠ t := fun he => h (he ▸ List.mem_cons_self t ts)
    have h2 : cid ∉ ts := fun he => h (List.mem_cons_of_mem t he)
    rw [ih _ h2, send_to_client_lookup_ne _ _ _ _ h1]

theorem fold_send_lookup_ok (m : MCPMessage) (cid : String) (cl : Client) :
    ∀ (ts : List String) (st : ServerState), ts.Nodup → cid ∈ ts →
      lookup_client st.clients cid = some cl → cl.ok = true →
      lookup_client ((ts.foldl (fun s c2 => send_to_client s c2 m) st)).clients cid
        = some (Client.mk cl.ok (cl.inbox ++ [wire_json m])) := by
  intro ts
  induction ts with
  | nil => intro st _ hmem; exact absurd hmem (List.not_mem_nil cid)
  | cons t ts ih =>
    intro st hnd hmem hl hok
    rw [List.foldl_cons]
    by_cases he : cid = t
    · subst he
      have hnotin : cid ∉ ts := (List.nodup_cons.mp hnd).1
      rw [fold_send_lookup_notin _ _ _ _ hnotin]
      exact send_to_client_lookup_ok _ _ _ _ hl hok
    · have hmem2 : cid ∈ ts := by
        rcases List.mem_cons.mp hmem with h1 | h1
        · exact absurd h1 he
        · exact h1
      have hl2 : lookup_client (send_to_client st t m).clients cid
          = some cl := by
        rw [send_to_client_lookup_ne _ _ _ _ he, hl]
      exact ih _ (List.nodup_cons.mp hnd).2 hmem2 hl2 hok

theorem fold_send_lookup_bad (m : MCPMessage) (cid : String) (cl : Client) :
    ∀ (ts : List String) (st : ServerState), ts.Nodup → cid ∈ ts →
      lookup_client st.clients cid = some cl → cl.ok = false →
      lookup_client ((ts.foldl (fun s c2 => send_to_client s c2 m) st)).clients cid
        = none := by
  intro ts
  induction ts with
  | nil => intro st _ hmem; exact absurd hmem (List.not_mem_nil cid)
  | cons t ts ih =>
    intro st hnd hmem hl hok
    rw [List.foldl_cons]
    by_cases he : cid = t
    · subst he
      have hnotin : cid ∉ ts := (List.nodup_cons.mp hnd).1
      rw [fold_send_lookup_notin _ _ _ _ hnotin]
      exact send_to_client_lookup_bad _ _ _ _ hl hok
    · have hmem2 : cid ∈ ts := by
        rcases List.mem_cons.mp hmem with h1 | h1
        · exact absurd h1 he
        · exact h1
      have hl2 : lookup_client (send_to_client st t m).clients cid
          = some cl := by
        rw [send_to_client_lookup_ne _ _ _ _ he, hl]
      exact ih _ (List.nodup_cons.mp hnd).2 hmem2 hl2 hok

/-- C5: broadcasting an envelope (the default route when no destination or an
unknown destination is given) delivers the serialized envelope exactly once
to every connected client other than the source; a client whose send fails is
removed from the registry without disturbing delivery to the others; the
source's own entry — in particular its inbox — is completely untouched. -/
theorem c5_broadcast_delivery (st : ServerState) (m : MCPMessage)
    (hnd : (st.clients.map Prod.fst).Nodup) :
    (lookup_client (broadcast_message st m).clients m.source
        = lookup_client st.clients m.source)
    ∧ (∀ cid cl, cid ≠ m.source → lookup_client st.clients cid = some cl →
        cl.ok = true →
        lookup_client (broadcast_message st m).clients cid
          = some (Client.mk cl.ok (cl.inbox ++ [wire_json m])))
    ∧ (∀ cid cl, cid ≠ m.source → lookup_client st.clients cid = some cl →
        cl.ok = false →
        lookup_client (broadcast_message st m).clients cid = none) := by
  by_cases hemp : st.clients.isEmpty
  · have hn : st.clients = [] := List.isEmpty_iff.mp hemp
    refine ⟨by simp [broadcast_message, hemp], ?_, ?_⟩
    · intro cid cl _ hl
      rw [hn] at hl
      exact absurd hl (by simp [lookup_client])
    · intro cid cl _ hl
      rw [hn] at hl
      exact absurd hl (by simp [lookup_client])
  · have hb : broadcast_message st m
        = ((st.clients.map Prod.fst).filter (fun c => c ≠ m.source)).foldl
            (fun s cid => send_to_client s cid m) st := by
      simp [broadcast_message, hemp]
    have hndt : ((st.clients.map Prod.fst).filter (fun c => c ≠ m.source)).Nodup :=
      hnd.filter _
    refine ⟨?_, ?_, ?_⟩
    · rw [hb]
      apply fold_send_lookup_notin
      intro hmem
      have h2 := (List.mem_filter.mp hmem).2
      simp at h2
    · intro cid cl hne hl hok
      rw [hb]
      apply fold_send_lookup_ok _ _ _ _ _ hndt _ hl hok
      exact List.mem_filter.mpr ⟨lookup_mem_keys _ _ _ hl, by simp [hne]⟩
    · intro cid cl hne hl hok
      rw [hb]
      apply fold_send_lookup_bad _ _ _ _ _ hndt _ hl hok
      exact List.mem_filter.mpr ⟨lookup_mem_keys _ _ _ hl, by simp [hne]⟩

theorem drain_fst : ∀ (q : List MCPMessage) (st : ServerState),
    (drain q st).1 = q := by
  intro q
  induction q with
  | nil => intro st; rfl
  | cons m ms ih => intro st; simp [drain, ih]

/-- C6: two frames arriving in order A then B (from any clients) are appended
to the single FIFO queue in that order, and the single consumer dispatches
the queue strictly in arrival order, so A is dispatched before B. -/
theorem c6_fifo_order (st : ServerState) (cA cB : String)
    (fA fB : Option JValue) (iA tA iB tB : String) (A B : MCPMessage)
    (h1 : process_message cA fA iA tA = some A)
    (h2 : process_message cB fB iB tB = some B) :
    (message_processing_loop
        (enqueue_frame (enqueue_frame st cA fA iA tA) cB fB iB tB)).1
      = st.queue ++ [A, B] := by
  unfold message_processing_loop
  simp only [enqueue_frame, h1, h2]
  rw [drain_fst]
  simp

/-- C6 witness: a concrete run with two frames on an initially empty queue
dispatches the two parsed envelopes in arrival order. -/
theorem c6_fifo_order_witness :
    (message_processing_loop
        (enqueue_frame
          (enqueue_frame (ServerState.mk [] [] []) "c1"
            (some (JValue.obj [])) "a" "t1") "c2"
          (some (JValue.obj [])) "b" "t2")).1
      = [MCPMessage.mk (JValue.str "a") (JValue.str "unknown") "c1" JValue.null
          (JValue.obj []) (JValue.str "t1") JValue.null,
         MCPMessage.mk (JValue.str "b") (JValue.str "unknown") "c2" JValue.null
          (JValue.obj []) (JValue.str "t2") JValue.null] :=
  c6_fifo_order (ServerState.mk [] [] []) "c1" "c2" (some (JValue.obj []))
    (some (JValue.obj [])) "a" "t1" "b" "t2" _ _ rfl rfl

/-- C5 witness: with clients a (the source), b (healthy) and c (failing send),
broadcasting from a delivers exactly one copy to b. -/
theorem c5_broadcast_delivery_witness :
    lookup_client
        (broadcast_message
          (ServerState.mk
            [("a", Client.mk true []), ("b", Client.mk true []),
             ("c", Client.mk false [])] [] [])
          sampleBroadcastMsg).clients "b"
      = some (Client.mk true [wire_json sampleBroadcastMsg]) :=
  ((c5_broadcast_delivery
      (ServerState.mk
        [("a", Client.mk true []), ("b", Client.mk true []),
         ("c", Client.mk false [])] [] [])
      sampleBroadcastMsg (by simp)).2.1 "b" (Client.mk true [])
    (by simp [sampleBroadcastMsg]) rfl rfl)

theorem exec_go_spec (m : Nat) (ex : String → Nat → TaskResult) :
    ∀ (ts : List String) (ctx : ExecutionContext),
      exec_go m ex ts ctx = ExecutionContext.mk
        (ctx.completed_tasks
          ++ ts.filter (fun t => (ex t 0).status == "success"))
        (ctx.failed_tasks
          ++ (ts.filter (fun t => !((ex t 0).status == "success"))).map
              (fun t => FailedTask.mk t (ex t 0).error (ex t 0).retry_count))
        (ctx.attempts
          ++ (ts.map (fun t =>
                if (ex t 0).status == "success" then [(t, 0)]
                else if (ex t 0).retry_count < m then [(t, 0), (t, 1)]
                else [(t, 0)])).flatten)
        (ctx.sleeps
          ++ (ts.filter (fun t =>
                !((ex t 0).status == "success")
                  && decide ((ex t 0).retry_count < m))).map
              (fun t => 2 ^ (ex t 0).retry_count))
        "completed" := by
  intro ts
  induction ts with
  | nil => intro ctx; cases ctx; simp [exec_go]
  | cons t rest ih =>
    intro ctx
    by_cases hs : (ex t 0).status = "success"
    · simp [exec_go, hs, ih]
    · by_cases hr : (ex t 0).retry_count < m
      · simp [exec_go, hs, handle_task_failure, hr, ih]
      · simp [exec_go, hs, handle_task_failure, hr, ih]

/-- C1 (counterexample): in the spec's scenario — tasks T1, T2, T3 with
max_retries = 3 where T2 fails twice and would succeed on the third attempt —
the final context is NOT completed = [T1, T2, T3] with failed = []: the
engine performs a single retry whose result it discards, so T2 stays failed. -/
theorem c1_reclassify_counterexample :
    ¬ ((execute_workflow ["T1", "T2", "T3"] 3 retry_succeeds_oracle).completed_tasks
          = ["T1", "T2", "T3"]
      ∧ (execute_workflow ["T1", "T2", "T3"] 3
            retry_succeeds_oracle).failed_tasks = []) := by
  decide

/-- C1 (amended): the completed and failed lists are determined by the first
attempt alone — a task enters completed exactly when its first execution
succeeds, and otherwise contributes a permanent failed entry built from that
first failing result; a successful retry never reclassifies it (the retry
result is discarded), so in the scenario completed = [T1, T3] and failed
keeps the T2 entry. -/
theorem c1_first_attempt_decides (tasks : List String) (m : Nat)
    (ex : String → Nat → TaskResult) :
    (execute_workflow tasks m ex).completed_tasks
        = tasks.filter (fun t => (ex t 0).status == "success")
    ∧ (execute_workflow tasks m ex).failed_tasks
        = (tasks.filter (fun t => !((ex t 0).status == "success"))).map
            (fun t => FailedTask.mk t (ex t 0).error (ex t 0).retry_count) := by
  unfold execute_workflow
  rw [exec_go_spec]
  exact ⟨rfl, rfl⟩

/-- C2 (counterexample): with a task T2 that always fails and
max_retries = 3, the engine executes T2 exactly twice (initial + one retry),
not the 1 + 3 executions a while-loop over retry_count would perform, and
records the failed entry with retry_count 0, not 3. -/
theorem c2_retry_loop_counterexample :
    (execute_workflow ["T2"] 3 always_fails_oracle).attempts
        = [("T2", 0), ("T2", 1)]
    ∧ (execute_workflow ["T2"] 3 always_fails_oracle).failed_tasks
        = [FailedTask.mk "T2" (some "boom") 0]
    ∧ (execute_workflow ["T2"] 3 always_fails_oracle).attempts.length ≠ 1 + 3 := by
  refine ⟨by decide, by decide, by decide⟩

/-- C2 (amended): failure handling performs at most ONE re-execution — when
the first attempt fails with recorded retry_count rc < max_retries, the
engine sleeps 2 ^ rc once and re-executes once, discarding the result; the
task stays recorded as failed either way, and every task in the list is
processed (the run always ends with status "completed": a failed task never
halts the workflow). -/
theorem c2_single_retry (tasks : List String) (m : Nat)
    (ex : String → Nat → TaskResult) :
    execute_workflow tasks m ex = ExecutionContext.mk
      (tasks.filter (fun t => (ex t 0).status == "success"))
      ((tasks.filter (fun t => !((ex t 0).status == "success"))).map
        (fun t => FailedTask.mk t (ex t 0).error (ex t 0).retry_count))
      ((tasks.map (fun t =>
          if (ex t 0).status == "success" then [(t, 0)]
          else if (ex t 0).retry_count < m then [(t, 0), (t, 1)]
          else [(t, 0)])).flatten)
      ((tasks.filter (fun t =>
          !((ex t 0).status == "success")
            && decide ((ex t 0).retry_count < m))).map
        (fun t => 2 ^ (ex t 0).retry_count))
      "completed" := by
  unfold execute_workflow
  rw [exec_go_spec]
  simp

/-- C8: start_all_agents and stop_all_agents are idempotent — starting while
already running, or stopping while already stopped, is a warning no-op; and
two consecutive stop calls from any state raise no error and leave
is_running = false after each call. -/
theorem c8_start_stop_idempotent :
    (∀ obs_ok, start_all_agents obs_ok (AgentManagerState.mk true)
        = (AgentManagerState.mk true, AgentOutcome.warning))
    ∧ (∀ obs_ok, stop_all_agents obs_ok (AgentManagerState.mk false)
        = (AgentManagerState.mk false, AgentOutcome.warning))
    ∧ (∀ (st : AgentManagerState) (ok1 ok2 : Bool),
        (stop_all_agents ok1 st).2 ≠ AgentOutcome.raisedError
        ∧ (stop_all_agents ok1 st).1.is_running = false
        ∧ (stop_all_agents ok2 (stop_all_agents ok1 st).1).2
            ≠ AgentOutcome.raisedError
        ∧ (stop_all_agents ok2 (stop_all_agents ok1 st).1).1.is_running
            = false) := by
  refine ⟨fun obs_ok => rfl, fun obs_ok => rfl, fun st ok1 ok2 => ?_⟩
  cases st with
  | mk r => cases r <;> cases ok1 <;> cases ok2 <;> simp [stop_all_agents]

theorem filter_ne_append_self (l : List String) (mid : String)
    (h : mid ∉ l) :
    (l ++ [mid]).filter (fun x => x ≠ mid) = l := by
  rw [List.filter_append]
  have h3 : List.filter (fun x => decide (x ≠ mid)) [mid] = [] := by simp
  rw [h3, List.append_nil]
  apply List.filter_eq_self.mpr
  intro a ha
  have h2 : a ≠ mid := fun he => h (he ▸ ha)
  simpa using h2

theorem client_handler_dispatch_fst (st : ClientState)
    (fields : List (String × JValue)) :
    (client_handler_dispatch st fields).1 = st := by
  unfold client_handler_dispatch
  cases h2 : dictGet fields "type" with
  | none => rfl
  | some v =>
      cases v with
      | str t => by_cases hc : t ∈ st.handlers <;> simp [hc]
      | null => rfl
      | bool b => rfl
      | num n => rfl
      | arr xs => rfl
      | obj fs => rfl

theorem client_handler_dispatch_not_resolved (st : ClientState)
    (fields : List (String × JValue)) (i : String) (v : JValue) :
    (client_handler_dispatch st fields).2 ≠ ClientEvent.resolved i v := by
  unfold client_handler_dispatch
  cases h2 : dictGet fields "type" with
  | none => simp
  | some w =>
      cases w with
      | str t => by_cases hc : t ∈ st.handlers <;> simp [hc]
      | null => simp
      | bool b => simp
      | num n => simp
      | arr xs => simp
      | obj fs => simp

/-- C3: for a waiting send — (a) the pending entry for the fresh id exists
already in the registration state, before anything is transmitted, and still
exists at the moment the frame is on the wire; (b) on timeout the call fails
with a timeout error and the pending entry is removed, and a late reply
carrying that id is then dispatched as an ordinary message, never resolved;
(c) a reply carrying the id that arrives before the deadline resolves the
call exactly once with the parsed reply, removing the pending entry so that
re-delivery of the same reply no longer resolves it. -/
theorem c3_send_message_wait (st : ClientState) (mtype : String) (d : JValue)
    (dest : Option String) (mid : String) (ts : JValue)
    (hfresh : mid ∉ st.pending) :
    ((register_pending st mid).pending.contains mid = true
      ∧ (register_pending st mid).sent = st.sent
      ∧ (transmit (register_pending st mid)
          (mk_client_message mid mtype dest d ts)).pending.contains mid = true
      ∧ (transmit (register_pending st mid)
          (mk_client_message mid mtype dest d ts)).sent
          = st.sent ++ [mk_client_message mid mtype dest d ts])
    ∧ ((send_message_wait st mtype d dest mid ts none).2
          = SendOutcome.timeoutError
      ∧ (send_message_wait st mtype d dest mid ts none).1.pending = st.pending
      ∧ ∀ fields, dictGet fields "id" = some (JValue.str mid) →
          (client_process_message (send_message_wait st mtype d dest mid ts none).1
              (some (JValue.obj fields))).1
            = (send_message_wait st mtype d dest mid ts none).1
          ∧ ∀ v, (client_process_message
                (send_message_wait st mtype d dest mid ts none).1
                (some (JValue.obj fields))).2 ≠ ClientEvent.resolved mid v)
    ∧ (∀ fields, dictGet fields "id" = some (JValue.str mid) →
        (send_message_wait st mtype d dest mid ts (some (JValue.obj fields))).2
            = SendOutcome.ok (JValue.obj fields)
        ∧ (send_message_wait st mtype d dest mid ts
            (some (JValue.obj fields))).1.pending = st.pending
        ∧ ∀ v, (client_process_message
              (send_message_wait st mtype d dest mid ts (some (JValue.obj fields))).1
              (some (JValue.obj fields))).2 ≠ ClientEvent.resolved mid v) := by
  have hfilter : (st.pending ++ [mid]).filter (fun x => x ≠ mid) = st.pending :=
    filter_ne_append_self st.pending mid hfresh
  have hnotres : ∀ (st2 : ClientState), st2.pending = st.pending →
      ∀ fields, dictGet fields "id" = some (JValue.str mid) →
        (client_process_message st2 (some (JValue.obj fields))).1 = st2
        ∧ ∀ v, (client_process_message st2 (some (JValue.obj fields))).2
            ≠ ClientEvent.resolved mid v := by
    intro st2 hpend fields hid
    have hcont : st2.pending.contains mid = false := by
      rw [hpend]
      simpa using hfresh
    constructor
    · simp only [client_process_message, hid, hcont, Bool.false_eq_true,
        if_false]
      exact client_handler_dispatch_fst st2 fields
    · intro v
      simp only [client_process_message, hid, hcont, Bool.false_eq_true,
        if_false]
      exact client_handler_dispatch_not_resolved st2 fields mid v
  refine ⟨⟨?_, rfl, ?_, rfl⟩, ⟨rfl, ?_, ?_⟩, ?_⟩
  · simp [register_pending]
  · simp [transmit, register_pending]
  · simp only [send_message_wait, transmit, register_pending]
    exact hfilter
  · intro fields hid
    have hpend : (send_message_wait st mtype d dest mid ts none).1.pending
        = st.pending := by
      simp only [send_message_wait, transmit, register_pending]
      exact hfilter
    exact hnotres _ hpend fields hid
  · intro fields hid
    have hcont2 : ((st.pending ++ [mid]).contains mid) = true := by simp
    have hrun : send_message_wait st mtype d dest mid ts
        (some (JValue.obj fields))
        = (ClientState.mk st.pending
            (st.sent ++ [mk_client_message mid mtype dest d ts]) st.handlers,
           SendOutcome.ok (JValue.obj fields)) := by
      simp only [send_message_wait, transmit, register_pending,
        client_process_message, hid, hcont2, if_true]
      rw [Prod.mk.injEq]
      constructor
      · rw [ClientState.mk.injEq]
        exact ⟨hfilter, rfl, rfl⟩
      · rfl
    refine ⟨by rw [hrun], by rw [hrun], ?_⟩
    rw [hrun]
    intro v
    exact (hnotres (ClientState.mk st.pending
        (st.sent ++ [mk_client_message mid mtype dest d ts]) st.handlers)
        rfl fields hid).2 v

/-- C3 (counterexample): the claim that a matching reply makes the call
return the reply's data payload (its data field) is false — the future is
resolved with the whole parsed reply envelope, so for a reply whose data
field is a strict sub-object the call returns the envelope, not the field. -/
theorem c3_reply_payload_counterexample :
    (send_message_wait (ClientState.mk [] [] []) "ping" (JValue.obj []) none
        "m1" JValue.null
        (some (JValue.obj [("id", JValue.str "m1"),
                           ("data", JValue.obj [("k", JValue.num 42)])]))).2
      ≠ SendOutcome.ok (JValue.obj [("k", JValue.num 42)]) := by
  intro h
  have he : (send_message_wait (ClientState.mk [] [] []) "ping" (JValue.obj [])
        none "m1" JValue.null
        (some (JValue.obj [("id", JValue.str "m1"),
                           ("data", JValue.obj [("k", JValue.num 42)])]))).2
      = SendOutcome.ok (JValue.obj [("id", JValue.str "m1"),
          ("data", JValue.obj [("k", JValue.num 42)])]) := rfl
  rw [he] at h
  simp at h

/-- C3 witness: from a fresh client state, a waiting ping whose reply carries
the same id returns that parsed reply. -/
theorem c3_send_message_wait_witness :
    (send_message_wait (ClientState.mk [] [] []) "ping" (JValue.obj []) none
        "m1" JValue.null (some (JValue.obj [("id", JValue.str "m1")]))).2
      = SendOutcome.ok (JValue.obj [("id", JValue.str "m1")]) :=
  ((c3_send_message_wait (ClientState.mk [] [] []) "ping" (JValue.obj []) none
      "m1" JValue.null (by simp)).2.2 [("id", JValue.str "m1")] rfl).1

theorem mk_client_id_ne_of_stamp_ne (n1 n2 : Nat) (t1 t2 : String)
    (hlen : t1.length = t2.length) (hne : t1 ≠ t2) :
    mk_client_id n1 t1 ≠ mk_client_id n2 t2 := by
  intro he
  apply hne
  unfold mk_client_id at he
  have hd := congrArg String.data he
  simp only [String.data_append] at hd
  have h2 := (List.append_inj' hd hlen).2
  ext1
  exact h2

theorem run_handle_clients_mem :
    ∀ (es : List ServerEvent) (cl : List String) (p : String × String),
      p ∈ run_handle_clients es cl →
      (∃ n, p.1 = mk_client_id n p.2) ∧ p.2 ∈ connect_stamps es := by
  intro es
  induction es with
  | nil =>
      intro cl p hmm
      exact absurd hmm (List.not_mem_nil p)
  | cons e es ih =>
      intro cl p hmm
      cases e with
      | connect ts =>
          simp only [run_handle_clients] at hmm
          rcases List.mem_cons.mp hmm with h1 | h1
          · refine ⟨⟨cl.length, by rw [h1]⟩, ?_⟩
            rw [h1]
            simp [connect_stamps]
          · obtain ⟨hn, hs⟩ := ih _ p h1
            exact ⟨hn, by simp [connect_stamps, hs]⟩
      | disconnect c =>
          simp only [run_handle_clients] at hmm
          obtain ⟨hn, hs⟩ := ih _ p hmm
          exact ⟨hn, by simp [connect_stamps, hs]⟩

/-- C7 (counterexample): with a disconnect between two connects carrying the
same timestamp, the broker assigns the same identity twice — the identity is
derived from the current registry size, which shrank back. -/
theorem c7_unique_id_counterexample :
    ¬ (assigned_ids [ServerEvent.connect "120000",
        ServerEvent.disconnect "client_1_120000",
        ServerEvent.connect "120000"]).Nodup := by
  have h : assigned_ids [ServerEvent.connect "120000",
      ServerEvent.disconnect "client_1_120000",
      ServerEvent.connect "120000"]
      = ["client_1_120000", "client_1_120000"] := rfl
  rw [h]
  simp

/-- C7 (amended): every assigned identity has the form
client_(registry size + 1)_(timestamp); the identities assigned over a run
are pairwise distinct provided the connect timestamps are pairwise distinct
(they are 6-character clock strings, so connects in distinct seconds) — with
a repeated timestamp after a disconnect, identities can repeat. -/
theorem c7_unique_id_amended (es : List ServerEvent)
    (hlen : ∀ ts ∈ connect_stamps es, ts.length = 6)
    (hnd : (connect_stamps es).Nodup) :
    (∀ p ∈ run_handle_clients es [], ∃ n, p.1 = mk_client_id n p.2)
    ∧ (assigned_ids es).Nodup := by
  constructor
  · intro p hp
    exact (run_handle_clients_mem es [] p hp).1
  · have main : ∀ (es2 : List ServerEvent),
        (∀ ts ∈ connect_stamps es2, ts.length = 6) →
        (connect_stamps es2).Nodup →
        ∀ cl, ((run_handle_clients es2 cl).map Prod.fst).Nodup := by
      intro es2
      induction es2 with
      | nil => intro _ _ cl; simp [run_handle_clients]
      | cons e es2 ih =>
          intro hlen2 hnd2 cl
          cases e with
          | connect ts =>
              have hstamp : connect_stamps (ServerEvent.connect ts :: es2)
                  = ts :: connect_stamps es2 := rfl
              rw [hstamp] at hlen2 hnd2
              simp only [run_handle_clients, List.map_cons]
              refine List.nodup_cons.mpr ⟨?_, ?_⟩
              · intro hmem
                obtain ⟨p, hp, hpe⟩ := List.mem_map.mp hmem
                obtain ⟨⟨n, hn⟩, hs⟩ := run_handle_clients_mem es2 _ p hp
                have hts : ts ∉ connect_stamps es2 :=
                  (List.nodup_cons.mp hnd2).1
                have hne2 : p.2 ≠ ts := fun hh => hts (hh ▸ hs)
                have hl1 : p.2.length = 6 :=
                  hlen2 p.2 (List.mem_cons_of_mem ts hs)
                have hl2 : ts.length = 6 := hlen2 ts (List.mem_cons_self ts _)
                exact mk_client_id_ne_of_stamp_ne n cl.length p.2 ts
                  (by rw [hl1, hl2]) hne2 (by rw [← hn, hpe])
              · exact ih (fun t ht => hlen2 t (List.mem_cons_of_mem ts ht))
                  (List.nodup_cons.mp hnd2).2 _
          | disconnect c =>
              have hstamp : connect_stamps (ServerEvent.disconnect c :: es2)
                  = connect_stamps es2 := rfl
              rw [hstamp] at hlen2 hnd2
              simp only [run_handle_clients]
              exact ih hlen2 hnd2 _
    exact main es hlen hnd []

/-- C7 witness: two connects in distinct seconds yield distinct identities. -/
theorem c7_unique_id_amended_witness :
    (assigned_ids [ServerEvent.connect "100000",
        ServerEvent.connect "100001"]).Nodup :=
  (c7_unique_id_amended
    [ServerEvent.connect "100000", ServerEvent.connect "100001"]
    (by decide) (by decide)).2

/-- C4 witness: the amended round trip evaluated at the sample envelope. -/
theorem c4_roundtrip_amended_witness :
    process_message "conn7" (some (wire_json sampleEnvelope)) "f" "n"
      = some { id := sampleEnvelope.id, type := sampleEnvelope.type,
               source := "conn7", destination := JValue.null,
               data := sampleEnvelope.data,
               timestamp := sampleEnvelope.timestamp,
               correlation_id := sampleEnvelope.correlation_id } :=
  c4_roundtrip_amended sampleEnvelope "conn7" "f" "n"

/-- C9 witness: two frames from connection c1 differing only in the claimed
source parse identically. -/
theorem c9_source_not_spoofable_witness :
    process_message "c1" (some (JValue.obj [("source", JValue.num 1)])) "f" "t"
      = process_message "c1" (some (JValue.obj [("source", JValue.num 2)])) "f"
          "t" :=
  (c9_source_not_spoofable "c1" "f" "t" [] (JValue.num 1) (JValue.num 2)).2

/-- C10 witness: an invalid-JSON frame is dropped. -/
theorem c10_object_frames_accepted_witness :
    process_message "c" none "f" "t" = none :=
  (c10_object_frames_accepted "c" "f" "t").2.1

/-- C8 witness: a stop from the running state does not raise. -/
theorem c8_start_stop_idempotent_witness :
    (stop_all_agents true (AgentManagerState.mk true)).2
      ≠ AgentOutcome.raisedError :=
  (c8_start_stop_idempotent.2.2 (AgentManagerState.mk true) true true).1

/-- C1 witness: the amended characterization evaluated on the C1 scenario —
the completed list is exactly the first-attempt successes T1, T3. -/
theorem c1_first_attempt_decides_witness :
    (execute_workflow ["T1", "T2", "T3"] 3 retry_succeeds_oracle).completed_tasks
      = ["T1", "T2", "T3"].filter
          (fun t => (retry_succeeds_oracle t 0).status == "success") :=
  (c1_first_attempt_decides ["T1", "T2", "T3"] 3 retry_succeeds_oracle).1

/-- C2 witness: the single-retry characterization evaluated on an
always-failing task with max_retries = 3. -/
theorem c2_single_retry_witness :
    execute_workflow ["T2"] 3 always_fails_oracle = ExecutionContext.mk
      (["T2"].filter (fun t => (always_fails_oracle t 0).status == "success"))
      ((["T2"].filter
          (fun t => !((always_fails_oracle t 0).status == "success"))).map
        (fun t => FailedTask.mk t (always_fails_oracle t 0).error
          (always_fails_oracle t 0).retry_count))
      ((["T2"].map (fun t =>
          if (always_fails_oracle t 0).status == "success" then [(t, 0)]
          else if (always_fails_oracle t 0).retry_count < 3 then [(t, 0), (t, 1)]
          else [(t, 0)])).flatten)
      ((["T2"].filter (fun t =>
          !((always_fails_oracle t 0).status == "success")
            && decide ((always_fails_oracle t 0).retry_count < 3))).map
        (fun t => 2 ^ (always_fails_oracle t 0).retry_count))
      "completed" :=
  c2_single_retry ["T2"] 3 always_fails_oracle
